import Mathlib

/-!
Shallow embedding of `src/pkg/nuclide/flow-base/lib/LocalFlowService.js`.

The class `LocalFlowService` is modelled as explicit state passing over
`FlowState` (its two instance fields `_startedServers` and `_failedRoots`,
plus a pid supply used to give spawned worker processes an identity).
External collaborators (`getFlowExecOptions`, `getPathToFlow`,
`asyncExecute`, `JSON.parse`, `insertAutocompleteToken`) are oracles in
`FlowEnv`; `asyncExecute` is indexed by the attempt number of the single
`_execFlow` call under scrutiny, since its arguments are fixed over the
retry loop while its outcome may change between attempts.

JavaScript values returned by `JSON.parse` are modelled by `Json`;
property access `o[k]` is `getProp`, which throws a `TypeError` when the
receiver is JSON `null`, exactly as in JavaScript.  Number coercion of
non-numeric JSON values (strings, arrays, objects) and float arithmetic
are outside the model: the fields the theorems touch are integer-valued
numbers, as produced by the worker.  A thrown exception is an `Except`
error value; `try { ... } catch { return v }` is `catchAll v`.
-/

/-- JSON values, the possible results of a successful `JSON.parse`. -/
inductive Json where
  | null : Json
  | bool : Bool → Json
  | num : Int → Json
  | str : String → Json
  | arr : List Json → Json
  | obj : List (String × Json) → Json

/-- First binding of a key in a parsed object (keys are unique in the
inputs the worker produces). `none` is JavaScript `undefined`. -/
def lookupField : List (String × Json) → String → Option Json
  | [], _ => none
  | (k, v) :: rest, key => if k == key then some v else lookupField rest key

/-- The resolved value of `asyncExecute(...)`: exit code plus captured
output streams. -/
structure ExecResult where
  exitCode : Int
  stdout : String
  stderr : String

/-- The rejection value of `asyncExecute(...)`.  Its `exitCode` property
may be `undefined` (`none`), e.g. when the process could not be run at
all; `findDiagnostics` branches on exactly that. -/
structure ExecError where
  exitCode : Option Int
  stdout : String
  stderr : String

/-- Outcome of one `asyncExecute` invocation: resolve or reject. -/
inductive ExecOutcome where
  | ok : ExecResult → ExecOutcome
  | err : ExecError → ExecOutcome

/-- Errors a JavaScript expression in this file can throw. -/
inductive JsError where
  | execError : ExecError → JsError
  | parseError : JsError
  | typeError : JsError

/-- JavaScript property access `o[k]` on a parsed JSON value: throws a
`TypeError` when `o` is `null`; yields `undefined` (`none`) on
non-objects and missing keys. -/
def getProp : Json → String → Except JsError (Option Json)
  | .null, _ => .error .typeError
  | .obj fields, key => .ok (lookupField fields key)
  | _, _ => .ok none

/-- JavaScript truthiness of a possibly-`undefined` JSON value. -/
def truthy : Option Json → Bool
  | none => false
  | some .null => false
  | some (.bool b) => b
  | some (.num n) => n != 0
  | some (.str s) => s != ""
  | some (.arr _) => true
  | some (.obj _) => true

/-- JavaScript numeric coercion restricted to the values the claims
exercise; `none` stands for NaN (and for the unmodelled string/array
coercions, which no theorem relies on). -/
def toNumber : Option Json → Option Int
  | some (.num n) => some n
  | some .null => some 0
  | some (.bool b) => some (if b then 1 else 0)
  | _ => none

/-- `v - 1` in JavaScript, on a possibly-`undefined` JSON value. -/
def jsSub1 (v : Option Json) : Option Int :=
  match toNumber v with
  | some n => some (n - 1)
  | none => none

/-- `try { body } catch (e) { return fallback }`. -/
def catchAll {α : Type} (fallback : α) : Except JsError α → Except JsError α
  | .error _ => .ok fallback
  | .ok v => .ok v

/-- Does the character list `s` start with `pat`? -/
def charsBeginWith : List Char → List Char → Bool
  | _, [] => true
  | [], _ :: _ => false
  | c :: cs, p :: ps => c == p && charsBeginWith cs ps

/-- Does the character list `s` contain `pat` as a contiguous run? -/
def charsContain (pat : List Char) : List Char → Bool
  | [] => charsBeginWith [] pat
  | c :: rest => charsBeginWith (c :: rest) pat || charsContain pat rest

/-- `s.match(pat)` for a pattern with no regex metacharacters: a
substring test. -/
def containsSubstring (s pat : String) : Bool :=
  charsContain pat.toList s.toList

/-- The characters of `s` up to (excluding) the first newline. -/
def firstLineChars : List Char → List Char
  | [] => []
  | c :: rest => if c == '\n' then [] else c :: firstLineChars rest

/-- `s.split('\n')[0]`: the first line of `s` (`""` when `s` is empty). -/
def firstLine (s : String) : String :=
  String.mk (firstLineChars s.toList)

/-- The stderr signature `_execFlow` retries on (line 75 of the source). -/
def noServerRunningSig : String := "There is no flow server running"

/-- A spawned `flow server` child process: its identity and the root it
was started for (`safeSpawn(pathToFlow, ['server', root])`). -/
structure WorkerHandle where
  pid : Nat
  root : String
deriving DecidableEq

/-- The mutable instance state of `LocalFlowService`: `_startedServers`,
`_failedRoots`, plus the pid supply that names freshly spawned workers. -/
structure FlowState where
  startedServers : List WorkerHandle
  failedRoots : List String
  nextPid : Nat
deriving DecidableEq

/-- The result of `getFlowExecOptions(file)`: the working directory (the
Flow root) is the only part `_execFlow` inspects. -/
structure FlowExecOptions where
  cwd : String

/-- The `options` object handlers build; only `stdin` is ever set. -/
structure ExecOptions where
  stdin : Option String

/-- Oracles for the external collaborators. -/
structure FlowEnv where
  getFlowExecOptions : String → Option FlowExecOptions
  pathToFlow : String
  attempts : Nat → ExecOutcome
  parseJson : String → Option Json
  insertAutocompleteToken : String → Int → Int → String

/-- `JSON.parse(s)`: `.error` when the real parse would throw. -/
def parseJsonE (env : FlowEnv) (s : String) : Except JsError Json :=
  match env.parseJson s with
  | some j => .ok j
  | none => .error .parseError

/-- `Set.add` on the string set `_failedRoots`. -/
def addToSet (l : List String) (x : String) : List String :=
  if l.contains x then l else l ++ [x]

/-- The `'exit'` observer attached to a spawned server (source lines
86–98): blacklist the root exactly when `code === 2 && signal === null`.
Nothing else in the state is touched. -/
def onServerExit (root : String) (st : FlowState) (code : Option Int)
    (signal : Option String) : FlowState :=
  if code = some 2 ∧ signal = none then
    { st with failedRoots := addToSet st.failedRoots root }
  else st

/-- One kill request issued during `dispose`. -/
structure KillAction where
  target : WorkerHandle
  signal : String
deriving DecidableEq

/-- `dispose()` (source lines 43–48): `server.kill('SIGKILL')` for each
tracked server.  The set itself is not modified. -/
def dispose (st : FlowState) : List KillAction × FlowState :=
  (st.startedServers.map (fun s => { target := s, signal := "SIGKILL" }), st)

/-- Result of the retry loop inside `_execFlow`, with the trace data the
properties are about: how many `asyncExecute` invocations ran and which
server processes were spawned. -/
structure LoopResult where
  result : Except ExecError ExecResult
  attemptsMade : Nat
  spawned : List WorkerHandle
  finalState : FlowState

/-- The `for (var i = 0; ; i++)` loop of `_execFlow` (source lines
67–106).  `remaining` is `maxTries - i`, so `remaining = 0` is exactly
the guard `i >= maxTries`; `i` itself indexes the `asyncExecute`
oracle.  On a failure whose stderr carries `noServerRunningSig`, a
`flow server` child is spawned, registered in `_startedServers`, and the
invocation is retried. -/
def execLoop (attempts : Nat → ExecOutcome) (root : String) (st : FlowState)
    (i : Nat) (remaining : Nat) : LoopResult :=
  match attempts i with
  | .ok r => { result := .ok r, attemptsMade := 1, spawned := [], finalState := st }
  | .err e =>
    match remaining with
    | 0 => { result := .error e, attemptsMade := 1, spawned := [], finalState := st }
    | rem + 1 =>
      if containsSubstring e.stderr noServerRunningSig then
        let serverProcess : WorkerHandle := { pid := st.nextPid, root := root }
        let st' : FlowState := { st with
          nextPid := st.nextPid + 1,
          startedServers := st.startedServers ++ [serverProcess] }
        let lr := execLoop attempts root st' (i + 1) rem
        { lr with attemptsMade := lr.attemptsMade + 1,
                  spawned := serverProcess :: lr.spawned }
      else
        { result := .error e, attemptsMade := 1, spawned := [], finalState := st }

/-- Result of `_execFlow`: `.ok none` is the JavaScript `null` return,
`.error` a rejection propagated to the calling handler. -/
structure ExecFlowResult where
  result : Except ExecError (Option ExecResult)
  attemptsMade : Nat
  spawned : List WorkerHandle
  finalState : FlowState

/-- `_execFlow(args, options, file)` (source lines 54–109): resolve the
root, short-circuit on a blacklisted root, append `--no-auto-start`,
then run the retry loop with `maxTries = 5` starting at `i = 0`. -/
def execFlow (env : FlowEnv) (args : List String) (options : ExecOptions)
    (file : String) (st : FlowState) : ExecFlowResult :=
  let maxTries := 5
  match env.getFlowExecOptions file with
  | none => { result := .ok none, attemptsMade := 0, spawned := [], finalState := st }
  | some flowOptions =>
    let root := flowOptions.cwd
    if st.failedRoots.contains root then
      { result := .ok none, attemptsMade := 0, spawned := [], finalState := st }
    else
      let args := args ++ ["--no-auto-start"]
      let lr := execLoop env.attempts root st 0 maxTries
      { result := lr.result.map some, attemptsMade := lr.attemptsMade,
        spawned := lr.spawned, finalState := lr.finalState }

/-- What a handler produces: its response (or an uncaught exception) plus
the execution trace of its single `_execFlow` call. -/
structure HandlerResult (α : Type) where
  response : Except JsError α
  attemptsMade : Nat
  spawned : List WorkerHandle
  finalState : FlowState

/-- The `Loc` record `findDefinition` builds (source lines 134–138):
`file` is the raw `json['path']` value, `line` and `column` the 1-based
worker coordinates decremented once. -/
structure Loc where
  file : Option Json
  line : Option Int
  column : Option Int

/-- `findDefinition(file, currentContents, line, column)` (source lines
111–150).  The whole body sits in a `try` whose `catch` returns `null`,
so the handler proper is `catchAll none` of the raw body. -/
def findDefinition (env : FlowEnv) (file : String) (currentContents : String)
    (line : Int) (column : Int) (st : FlowState) : HandlerResult (Option Loc) :=
  let options : ExecOptions := { stdin := some currentContents }
  let args := ["get-def", "--json", "--path", file, toString line, toString column]
  let er := execFlow env args options file st
  let body : Except JsError (Option Loc) :=
    match er.result with
    | .error e => .error (.execError e)
    | .ok none => .ok none
    | .ok (some result) =>
      if result.exitCode = 0 then
        match parseJsonE env result.stdout with
        | .error err => .error err
        | .ok json =>
          match getProp json "path" with
          | .error err => .error err
          | .ok pathVal =>
            if truthy pathVal then
              match getProp json "line", getProp json "start" with
              | .ok lineVal, .ok startVal =>
                .ok (some { file := pathVal, line := jsSub1 lineVal,
                            column := jsSub1 startVal })
              | _, _ => .error .typeError
            else
              .ok none
      else
        .ok none
  { response := catchAll none body, attemptsMade := er.attemptsMade,
    spawned := er.spawned, finalState := er.finalState }

/-- The tail of `findDiagnostics` (source lines 191–199): parse
`result.stdout` inside a `try` that returns `[]` on a parse throw, then
evaluate `json['errors']` OUTSIDE any `try`, so a `TypeError` there (the
parsed value being JSON `null`) escapes the handler. -/
def diagnosticsDecode (env : FlowEnv) (stdoutText : String) :
    Except JsError (Option Json) :=
  match env.parseJson stdoutText with
  | none => .ok (some (.arr []))
  | some json => getProp json "errors"

/-- `findDiagnostics(file, currentContents)` (source lines 157–200).
A rejection of `_execFlow` carrying a defined `exitCode` is reused as
the result; one without is logged and becomes `[]`. -/
def findDiagnostics (env : FlowEnv) (file : String)
    (currentContents : Option String) (st : FlowState) :
    HandlerResult (Option Json) :=
  let useContents : Bool :=
    match currentContents with
    | some c => c != ""
    | none => false
  let options : ExecOptions :=
    if useContents then { stdin := currentContents } else { stdin := none }
  let args :=
    if useContents then ["check-contents", "--json", file]
    else ["status", "--json", file]
  let er := execFlow env args options file st
  let response : Except JsError (Option Json) :=
    match er.result with
    | .ok none => .ok (some (.arr []))
    | .ok (some result) => diagnosticsDecode env result.stdout
    | .error e =>
      match e.exitCode with
      | some _ => diagnosticsDecode env e.stdout
      | none => .ok (some (.arr []))
  { response := response, attemptsMade := er.attemptsMade,
    spawned := er.spawned, finalState := er.finalState }

/-- One autocomplete suggestion (source lines 222–228). -/
structure Suggestion where
  text : Option Json
  rightLabel : Option Json
  replacementPrefix : String

/-- The test `/^\s*$/.test(s)`. -/
def isAllWhitespace (s : String) : Bool :=
  s.toList.all Char.isWhitespace

/-- `getAutocompleteSuggestions(file, currentContents, line, column,
prefix)` (source lines 202–235; the last parameter is renamed because
its source name is a Lean keyword).  Everything sits in a `try` whose
`catch` returns `[]`: a parse throw, a `.map` call on a non-array, and a
property access on a `null` array element are all caught. -/
def getAutocompleteSuggestions (env : FlowEnv) (file : String)
    (currentContents : String) (line : Int) (column : Int) (pfx : String)
    (st : FlowState) : HandlerResult (List Suggestion) :=
  let options : ExecOptions :=
    { stdin := some (env.insertAutocompleteToken currentContents line column) }
  let args := ["autocomplete", "--json", file]
  let er := execFlow env args options file st
  let body : Except JsError (List Suggestion) :=
    match er.result with
    | .error e => .error (.execError e)
    | .ok none => .ok []
    | .ok (some result) =>
      if result.exitCode = 0 then
        match parseJsonE env result.stdout with
        | .error err => .error err
        | .ok json =>
          let replacementPrefix := if isAllWhitespace pfx then "" else pfx
          match json with
          | .arr items =>
            items.mapM (fun item => do
              let nameVal ← getProp item "name"
              let typeVal ← getProp item "type"
              pure { text := nameVal, rightLabel := typeVal,
                     replacementPrefix := replacementPrefix })
          | _ => .error .typeError
      else
        .ok []
  { response := catchAll [] body, attemptsMade := er.attemptsMade,
    spawned := er.spawned, finalState := er.finalState }

/-- The output inspection at the tail of `getType` (source lines
262–273): `null` when the output matches `/\nFailure/` (a newline
followed by `Failure`, anywhere); otherwise the first line, with the
`(unknown)` marker and the empty string mapped to `null`. -/
def typeFromOutput (output : String) : Option String :=
  if containsSubstring output "\nFailure" then none
  else
    let type := firstLine output
    if type == "(unknown)" || type == "" then none
    else some type

/-- `getType(file, currentContents, line, column)` (source lines
237–274).  Only the `_execFlow` call is inside the `try`; the string
inspection after it cannot throw, so every branch returns. -/
def getType (env : FlowEnv) (file : String) (currentContents : String)
    (line : Int) (column : Int) (st : FlowState) :
    HandlerResult (Option String) :=
  let options : ExecOptions := { stdin := some currentContents }
  let line := line + 1
  let column := column + 1
  let args := ["type-at-pos", toString line, toString column]
  let er := execFlow env args options file st
  let response : Except JsError (Option String) :=
    match er.result with
    | .error _ => .ok none
    | .ok none => .ok none
    | .ok (some result) => .ok (typeFromOutput result.stdout)
  { response := response, attemptsMade := er.attemptsMade,
    spawned := er.spawned, finalState := er.finalState }

/-! Concrete states and environments used by the closed evaluations. -/

/-- A freshly constructed service: both sets empty. -/
def stEmpty : FlowState := { startedServers := [], failedRoots := [], nextPid := 0 }

/-- A service whose root `/r` has already been blacklisted. -/
def stBlack : FlowState := { startedServers := [], failedRoots := ["/r"], nextPid := 0 }

/-- A service tracking one started server for root `/r`. -/
def stOne : FlowState :=
  { startedServers := [{ pid := 0, root := "/r" }], failedRoots := [], nextPid := 1 }

/-- The rejection `asyncExecute` produces while no server is running. -/
def errNoServer : ExecError :=
  { exitCode := some 1, stdout := "", stderr := "There is no flow server running" }

/-- An environment in which every invocation keeps failing with the
transient-absence signature: the worker never comes up. -/
def envSustained : FlowEnv :=
  { getFlowExecOptions := fun _ => some { cwd := "/r" },
    pathToFlow := "/bin/flow",
    attempts := fun _ => .err errNoServer,
    parseJson := fun _ => none,
    insertAutocompleteToken := fun s _ _ => s }

/-- An environment in which the invocation succeeds with stdout `null`,
which is valid JSON (`JSON.parse` yields JavaScript `null`). -/
def envNullDiag : FlowEnv :=
  { getFlowExecOptions := fun _ => some { cwd := "/r" },
    pathToFlow := "/bin/flow",
    attempts := fun _ => .ok { exitCode := 0, stdout := "null", stderr := "" },
    parseJson := fun s => if s = "null" then some .null else none,
    insertAutocompleteToken := fun s _ _ => s }

/-- An environment in which `type-at-pos` succeeds and prints a type on
the first line and a `Failure` message on the third. -/
def envFoo : FlowEnv :=
  { getFlowExecOptions := fun _ => some { cwd := "/r" },
    pathToFlow := "/bin/flow",
    attempts := fun _ => .ok { exitCode := 0, stdout := "Foo\nBar\nFailure: x", stderr := "" },
    parseJson := fun _ => none,
    insertAutocompleteToken := fun s _ _ => s }

/-- The JSON object a successful `get-def` run reports. -/
def defJson : Json :=
  .obj [("path", .str "/r/b.js"), ("line", .num 5), ("start", .num 3)]

/-- An environment in which `get-def` succeeds with `defJson`. -/
def envDef : FlowEnv :=
  { getFlowExecOptions := fun _ => some { cwd := "/r" },
    pathToFlow := "/bin/flow",
    attempts := fun _ => .ok { exitCode := 0, stdout := "defout", stderr := "" },
    parseJson := fun s => if s = "defout" then some defJson else none,
    insertAutocompleteToken := fun s _ _ => s }

/-- The substantive failure `flow status` produces when diagnostics
exist: non-zero exit, but the payload still parses. -/
def errDiag : ExecError :=
  { exitCode := some 2, stdout := "diagout", stderr := "boom" }

/-- An environment in which the invocation fails with `errDiag` and its
stdout parses to an object carrying one diagnostic record. -/
def envDiagErr : FlowEnv :=
  { getFlowExecOptions := fun _ => some { cwd := "/r" },
    pathToFlow := "/bin/flow",
    attempts := fun _ => .err errDiag,
    parseJson := fun s =>
      if s = "diagout" then some (.obj [("errors", .arr [.str "E1"])]) else none,
    insertAutocompleteToken := fun s _ _ => s }

/-! Helper lemmas. -/

/-- A body wrapped in a catch-all `try` never surfaces an error. -/
theorem catchAll_ok {α : Type} (fallback : α) (x : Except JsError α) :
    ∃ v, catchAll fallback x = .ok v := by
  cases x with
  | error e => exact ⟨fallback, rfl⟩
  | ok v => exact ⟨v, rfl⟩

/-- Membership after `Set.add`. -/
theorem mem_addToSet (l : List String) (x y : String) :
    y ∈ addToSet l x ↔ y ∈ l ∨ y = x := by
  unfold addToSet
  split
  · rename_i h
    constructor
    · exact Or.inl
    · rintro (h' | rfl)
      · exact h'
      · simpa using h
  · simp [List.mem_append]

/-- Loop step: a successful invocation returns at once. -/
theorem execLoop_ok (attempts : Nat → ExecOutcome) (root : String) (st : FlowState)
    (i remaining : Nat) (r : ExecResult) (h : attempts i = .ok r) :
    execLoop attempts root st i remaining =
      { result := .ok r, attemptsMade := 1, spawned := [], finalState := st } := by
  rw [execLoop.eq_def, h]

/-- Loop step: a failure at the retry bound is rethrown before the
stderr text is inspected, so no further server is spawned. -/
theorem execLoop_err_stop (attempts : Nat → ExecOutcome) (root : String) (st : FlowState)
    (i : Nat) (e : ExecError) (h : attempts i = .err e) :
    execLoop attempts root st i 0 =
      { result := .error e, attemptsMade := 1, spawned := [], finalState := st } := by
  rw [execLoop.eq_def, h]

/-- Loop step: a substantive failure (stderr without the transient
signature) is rethrown without a retry. -/
theorem execLoop_err_nomatch (attempts : Nat → ExecOutcome) (root : String)
    (st : FlowState) (i rem : Nat) (e : ExecError) (h : attempts i = .err e)
    (hc : containsSubstring e.stderr noServerRunningSig = false) :
    execLoop attempts root st i (rem + 1) =
      { result := .error e, attemptsMade := 1, spawned := [], finalState := st } := by
  rw [execLoop.eq_def, h]
  simp [hc]

/-- Loop step: a transient-absence failure below the bound spawns a
server, registers it, and retries. -/
theorem execLoop_err_spawn (attempts : Nat → ExecOutcome) (root : String)
    (st : FlowState) (i rem : Nat) (e : ExecError) (h : attempts i = .err e)
    (hc : containsSubstring e.stderr noServerRunningSig = true) :
    execLoop attempts root st i (rem + 1) =
      (let serverProcess : WorkerHandle := { pid := st.nextPid, root := root }
       let st' : FlowState := { st with
         nextPid := st.nextPid + 1,
         startedServers := st.startedServers ++ [serverProcess] }
       let lr := execLoop attempts root st' (i + 1) rem
       { lr with attemptsMade := lr.attemptsMade + 1,
                 spawned := serverProcess :: lr.spawned }) := by
  rw [execLoop.eq_def, h]
  simp [hc]

/-- The loop spawns at most one server per remaining retry. -/
theorem execLoop_spawned_le (attempts : Nat → ExecOutcome) (root : String) :
    ∀ remaining st i,
      (execLoop attempts root st i remaining).spawned.length ≤ remaining := by
  intro remaining
  induction remaining with
  | zero =>
    intro st i
    cases h : attempts i with
    | ok r => rw [execLoop_ok attempts root st i 0 r h]; simp
    | err e => rw [execLoop_err_stop attempts root st i e h]; simp
  | succ rem ih =>
    intro st i
    cases h : attempts i with
    | ok r => rw [execLoop_ok attempts root st i (rem + 1) r h]; simp
    | err e =>
      by_cases hc : containsSubstring e.stderr noServerRunningSig
      · rw [execLoop_err_spawn attempts root st i rem e h hc]
        simp only [List.length_cons]
        exact Nat.succ_le_succ (ih _ (i + 1))
      · rw [execLoop_err_nomatch attempts root st i rem e h (by simpa using hc)]
        simp

/-- The loop makes at most `remaining + 1` invocations. -/
theorem execLoop_attempts_le (attempts : Nat → ExecOutcome) (root : String) :
    ∀ remaining st i,
      (execLoop attempts root st i remaining).attemptsMade ≤ remaining + 1 := by
  intro remaining
  induction remaining with
  | zero =>
    intro st i
    cases h : attempts i with
    | ok r => rw [execLoop_ok attempts root st i 0 r h]
    | err e => rw [execLoop_err_stop attempts root st i e h]
  | succ rem ih =>
    intro st i
    cases h : attempts i with
    | ok r => rw [execLoop_ok attempts root st i (rem + 1) r h]; simp
    | err e =>
      by_cases hc : containsSubstring e.stderr noServerRunningSig
      · rw [execLoop_err_spawn attempts root st i rem e h hc]
        simp only []
        exact Nat.succ_le_succ (ih _ (i + 1))
      · rw [execLoop_err_nomatch attempts root st i rem e h (by simpa using hc)]
        simp

/-- The loop only appends to the server registry: the final registry is
the initial one followed by exactly the spawned handles. -/
theorem execLoop_startedServers (attempts : Nat → ExecOutcome) (root : String) :
    ∀ remaining st i,
      (execLoop attempts root st i remaining).finalState.startedServers =
        st.startedServers ++ (execLoop attempts root st i remaining).spawned := by
  intro remaining
  induction remaining with
  | zero =>
    intro st i
    cases h : attempts i with
    | ok r => rw [execLoop_ok attempts root st i 0 r h]; simp
    | err e => rw [execLoop_err_stop attempts root st i e h]; simp
  | succ rem ih =>
    intro st i
    cases h : attempts i with
    | ok r => rw [execLoop_ok attempts root st i (rem + 1) r h]; simp
    | err e =>
      by_cases hc : containsSubstring e.stderr noServerRunningSig
      · rw [execLoop_err_spawn attempts root st i rem e h hc]
        simp only [ih]
        simp
      · rw [execLoop_err_nomatch attempts root st i rem e h (by simpa using hc)]
        simp

/-- Closed form of the loop under sustained transient absence: every
attempt fails with the signature, so the loop runs `remaining + 1`
invocations, spawns `remaining` servers, and rethrows the last error. -/
theorem execLoop_sustained (attempts : Nat → ExecOutcome) (e : Nat → ExecError)
    (root : String) (hfail : ∀ j, attempts j = .err (e j))
    (hmatch : ∀ j, containsSubstring (e j).stderr noServerRunningSig = true) :
    ∀ remaining st i,
      (execLoop attempts root st i remaining).result = .error (e (i + remaining)) ∧
      (execLoop attempts root st i remaining).attemptsMade = remaining + 1 ∧
      (execLoop attempts root st i remaining).spawned.length = remaining := by
  intro remaining
  induction remaining with
  | zero =>
    intro st i
    rw [execLoop_err_stop attempts root st i (e i) (hfail i)]
    simp
  | succ rem ih =>
    intro st i
    rw [execLoop_err_spawn attempts root st i rem (e i) (hfail i) (hmatch i)]
    have hrec := ih { st with
      nextPid := st.nextPid + 1,
      startedServers := st.startedServers ++ [{ pid := st.nextPid, root := root }] } (i + 1)
    have harith : i + (rem + 1) = (i + 1) + rem := by omega
    refine ⟨?_, ?_, ?_⟩
    · simp only [harith]
      simpa using hrec.1
    · simpa using hrec.2.1
    · simpa using hrec.2.2

/-- `_execFlow` when no configuration root is found: safe no-result. -/
theorem execFlow_noOptions (env : FlowEnv) (args : List String)
    (options : ExecOptions) (file : String) (st : FlowState)
    (h : env.getFlowExecOptions file = none) :
    execFlow env args options file st =
      { result := .ok none, attemptsMade := 0, spawned := [], finalState := st } := by
  simp [execFlow, h]

/-- `_execFlow` on a blacklisted root: immediate no-result. -/
theorem execFlow_blacklisted_case (env : FlowEnv) (args : List String)
    (options : ExecOptions) (file : String) (st : FlowState)
    (opts : FlowExecOptions) (hopts : env.getFlowExecOptions file = some opts)
    (hbad : st.failedRoots.contains opts.cwd = true) :
    execFlow env args options file st =
      { result := .ok none, attemptsMade := 0, spawned := [], finalState := st } := by
  have hbad' : opts.cwd ∈ st.failedRoots := by simpa using hbad
  simp [execFlow, hopts, hbad']

/-- `_execFlow` on a healthy root reduces to the retry loop with
`maxTries = 5` starting at attempt 0. -/
theorem execFlow_run (env : FlowEnv) (args : List String) (options : ExecOptions)
    (file : String) (st : FlowState) (opts : FlowExecOptions)
    (h : env.getFlowExecOptions file = some opts)
    (hb : st.failedRoots.contains opts.cwd = false) :
    execFlow env args options file st =
      { result := (execLoop env.attempts opts.cwd st 0 5).result.map some,
        attemptsMade := (execLoop env.attempts opts.cwd st 0 5).attemptsMade,
        spawned := (execLoop env.attempts opts.cwd st 0 5).spawned,
        finalState := (execLoop env.attempts opts.cwd st 0 5).finalState } := by
  have hb' : opts.cwd ∉ st.failedRoots := by simpa using hb
  simp [execFlow, h, hb']

/-! The claims. -/

/-- Claim C1: once a root is in the failed-roots set, `_execFlow` for a
file resolving to that root returns the no-result value immediately: the
worker binary is never invoked (zero attempts) and no worker process is
spawned, with the state untouched. -/
theorem execFlow_blacklisted_no_result (env : FlowEnv) (args : List String)
    (options : ExecOptions) (file : String) (st : FlowState)
    (opts : FlowExecOptions) (hopts : env.getFlowExecOptions file = some opts)
    (hbad : st.failedRoots.contains opts.cwd = true) :
    execFlow env args options file st =
      { result := .ok none, attemptsMade := 0, spawned := [], finalState := st } := by
  have hbad' : opts.cwd ∈ st.failedRoots := by simpa using hbad
  simp [execFlow, hopts, hbad']

/-- Claim C1, witness: concrete blacklisted root under an environment
whose invocations would all fail — nothing runs anyway. -/
theorem execFlow_blacklisted_no_result_witness :
    execFlow envSustained [] { stdin := none } "/r/a.js" stBlack =
      { result := .ok none, attemptsMade := 0, spawned := [], finalState := stBlack } :=
  execFlow_blacklisted_no_result envSustained [] { stdin := none } "/r/a.js" stBlack
    { cwd := "/r" } rfl rfl

/-- Claim C2, counterexample: under a sustained transient-absence
condition the executor runs the one-shot invocation six times, not five
— the loop guard `i >= maxTries` fires only after attempt index 5. -/
theorem execFlow_sustained_six_attempts :
    (execFlow envSustained [] { stdin := none } "/r/a.js" stEmpty).attemptsMade = 6 ∧
    (execFlow envSustained [] { stdin := none } "/r/a.js" stEmpty).attemptsMade ≠ 5 := by
  exact ⟨by decide, by decide⟩

/-- Claim C2, amended: under a sustained transient-absence condition the
executor runs the one-shot invocation exactly 6 times (the initial
attempt plus 5 retries), propagates the last failure to the caller, and
never exceeds 6 invocations in any run. -/
theorem execFlow_retry_bound_six (env : FlowEnv) (args : List String)
    (options : ExecOptions) (file : String) (st : FlowState)
    (opts : FlowExecOptions) (e : Nat → ExecError)
    (hopts : env.getFlowExecOptions file = some opts)
    (hroot : st.failedRoots.contains opts.cwd = false)
    (hfail : ∀ j, env.attempts j = .err (e j))
    (hmatch : ∀ j, containsSubstring (e j).stderr noServerRunningSig = true) :
    (execFlow env args options file st).attemptsMade = 6 ∧
    (execFlow env args options file st).result = .error (e 5) ∧
    ∀ (env' : FlowEnv) (args' : List String) (options' : ExecOptions)
      (file' : String) (st' : FlowState),
      (execFlow env' args' options' file' st').attemptsMade ≤ 6 := by
  have hs := execLoop_sustained env.attempts e opts.cwd hfail hmatch 5 st 0
  rw [execFlow_run env args options file st opts hopts hroot]
  refine ⟨by simpa using hs.2.1, by simp [hs.1, Except.map], ?_⟩
  intro env' args' options' file' st'
  cases h : env'.getFlowExecOptions file' with
  | none =>
    rw [execFlow_noOptions env' args' options' file' st' h]
    simp
  | some opts' =>
    by_cases hb : st'.failedRoots.contains opts'.cwd
    · rw [execFlow_blacklisted_case env' args' options' file' st' opts' h hb]
      simp
    · rw [execFlow_run env' args' options' file' st' opts' h (by simpa using hb)]
      exact execLoop_attempts_le env'.attempts opts'.cwd 5 st' 0

/-- Claim C2, witness for the amended theorem at a concrete sustained
failure. -/
theorem execFlow_retry_bound_six_witness :
    (execFlow envSustained [] { stdin := none } "/r/a.js" stEmpty).attemptsMade = 6 ∧
    (execFlow envSustained [] { stdin := none } "/r/a.js" stEmpty).result = .error errNoServer ∧
    ∀ (env' : FlowEnv) (args' : List String) (options' : ExecOptions)
      (file' : String) (st' : FlowState),
      (execFlow env' args' options' file' st').attemptsMade ≤ 6 :=
  execFlow_retry_bound_six envSustained [] { stdin := none } "/r/a.js" stEmpty
    { cwd := "/r" } (fun _ => errNoServer) rfl rfl (fun _ => rfl) (fun _ => rfl)

/-- Claim C3: a spawned worker's exit blacklists the owning root exactly
when the exit code is 2 and the signal is none; no other root's
membership changes; an exit with code none and signal SIGTERM leaves the
whole state untouched. -/
theorem serverExit_blacklist_iff (root : String) (st : FlowState)
    (code : Option Int) (signal : Option String) :
    (root ∈ (onServerExit root st code signal).failedRoots ↔
      root ∈ st.failedRoots ∨ (code = some 2 ∧ signal = none)) ∧
    (∀ r, r ≠ root →
      (r ∈ (onServerExit root st code signal).failedRoots ↔ r ∈ st.failedRoots)) ∧
    onServerExit root st none (some "SIGTERM") = st := by
  refine ⟨?_, ?_, by simp [onServerExit]⟩
  · unfold onServerExit
    by_cases h : code = some 2 ∧ signal = none
    · simp [h, mem_addToSet]
    · simp [h]
  · intro r hr
    unfold onServerExit
    by_cases h : code = some 2 ∧ signal = none
    · simp [h, mem_addToSet, hr]
    · simp [h]

/-- Claim C3, witness: a crash exit of root `/r` from the empty state,
an unrelated root `/other`, and a SIGTERM exit. -/
theorem serverExit_blacklist_iff_witness :
    ("/r" ∈ (onServerExit "/r" stEmpty (some 2) none).failedRoots ↔
      "/r" ∈ stEmpty.failedRoots ∨
        ((some 2 : Option Int) = some 2 ∧ (none : Option String) = none)) ∧
    ("/other" ∈ (onServerExit "/r" stEmpty (some 2) none).failedRoots ↔
      "/other" ∈ stEmpty.failedRoots) ∧
    onServerExit "/r" stEmpty none (some "SIGTERM") = stEmpty :=
  ⟨(serverExit_blacklist_iff "/r" stEmpty (some 2) none).1,
   (serverExit_blacklist_iff "/r" stEmpty (some 2) none).2.1 "/other" (by decide),
   (serverExit_blacklist_iff "/r" stEmpty (some 2) none).2.2⟩

/-- Claim C4: three of the four request handlers (definition lookup,
autocomplete, type-at-position) never surface an exception for any
environment and input; but the diagnostics handler evaluates
`json['errors']` outside every `try`, so when the invocation's stdout is
the valid JSON text `null` the property access throws a TypeError past
the handler boundary. -/
theorem handlers_boundary :
    (∀ (env : FlowEnv) (file cc : String) (line column : Int) (st : FlowState),
      ∃ v, (findDefinition env file cc line column st).response = .ok v) ∧
    (∀ (env : FlowEnv) (file cc : String) (line column : Int) (pfx : String)
       (st : FlowState),
      ∃ v, (getAutocompleteSuggestions env file cc line column pfx st).response = .ok v) ∧
    (∀ (env : FlowEnv) (file cc : String) (line column : Int) (st : FlowState),
      ∃ v, (getType env file cc line column st).response = .ok v) ∧
    (findDiagnostics envNullDiag "/r/a.js" none stEmpty).response = .error .typeError := by
  refine ⟨?_, ?_, ?_, rfl⟩
  · intro env file cc line column st
    exact catchAll_ok none _
  · intro env file cc line column pfx st
    exact catchAll_ok [] _
  · intro env file cc line column st
    simp only [getType]
    split
    · exact ⟨none, rfl⟩
    · exact ⟨none, rfl⟩
    · exact ⟨_, rfl⟩

/-- Claim C5: when the executor rejects with an error carrying a defined
exit code and the captured stdout parses to an object with an `errors`
array, the diagnostics handler returns that array; a rejection without
an exit code yields the empty list. -/
theorem findDiagnostics_failure_payload :
    (∀ (env : FlowEnv) (file : String) (cc : Option String) (st : FlowState)
       (opts : FlowExecOptions) (e : ExecError) (c : Int)
       (fields : List (String × Json)) (errs : List Json),
      env.getFlowExecOptions file = some opts →
      st.failedRoots.contains opts.cwd = false →
      env.attempts 0 = .err e →
      containsSubstring e.stderr noServerRunningSig = false →
      e.exitCode = some c →
      env.parseJson e.stdout = some (.obj fields) →
      lookupField fields "errors" = some (.arr errs) →
      (findDiagnostics env file cc st).response = .ok (some (.arr errs))) ∧
    (∀ (env : FlowEnv) (file : String) (cc : Option String) (st : FlowState)
       (opts : FlowExecOptions) (e : ExecError),
      env.getFlowExecOptions file = some opts →
      st.failedRoots.contains opts.cwd = false →
      env.attempts 0 = .err e →
      containsSubstring e.stderr noServerRunningSig = false →
      e.exitCode = none →
      (findDiagnostics env file cc st).response = .ok (some (.arr []))) := by
  constructor
  · intro env file cc st opts e c fields errs hopts hroot hfirst hnomatch hcode hparse herrs
    have hloop : execLoop env.attempts opts.cwd st 0 5 =
        { result := .error e, attemptsMade := 1, spawned := [], finalState := st } :=
      execLoop_err_nomatch env.attempts opts.cwd st 0 4 e hfirst hnomatch
    simp only [findDiagnostics]
    rw [execFlow_run env _ _ file st opts hopts hroot, hloop]
    simp [diagnosticsDecode, hcode, hparse, getProp, herrs, Except.map]
  · intro env file cc st opts e hopts hroot hfirst hnomatch hcode
    have hloop : execLoop env.attempts opts.cwd st 0 5 =
        { result := .error e, attemptsMade := 1, spawned := [], finalState := st } :=
      execLoop_err_nomatch env.attempts opts.cwd st 0 4 e hfirst hnomatch
    simp only [findDiagnostics]
    rw [execFlow_run env _ _ file st opts hopts hroot, hloop]
    simp [hcode, Except.map]

/-- Claim C5, witness: a non-zero exit whose stdout parses as an object
with one diagnostic record yields that record. -/
theorem findDiagnostics_failure_payload_witness :
    (findDiagnostics envDiagErr "/r/a.js" none stEmpty).response =
      .ok (some (.arr [.str "E1"])) :=
  findDiagnostics_failure_payload.1 envDiagErr "/r/a.js" none stEmpty
    { cwd := "/r" } errDiag 2 [("errors", .arr [.str "E1"])] [.str "E1"]
    rfl rfl rfl rfl rfl rfl rfl

/-- Claim C6: on a successful lookup (exit 0) whose parsed result
carries a (truthy) target path, the handler returns the path with the
1-based line and start each decremented exactly once; if the result has
no path field it returns the no-result value. -/
theorem findDefinition_decode (env : FlowEnv) (file cc : String)
    (line column : Int) (st : FlowState) (opts : FlowExecOptions)
    (r : ExecResult) (fields : List (String × Json))
    (hopts : env.getFlowExecOptions file = some opts)
    (hroot : st.failedRoots.contains opts.cwd = false)
    (hexec : env.attempts 0 = .ok r)
    (hexit : r.exitCode = 0)
    (hparse : env.parseJson r.stdout = some (.obj fields)) :
    (∀ (p : String) (l c : Int),
      lookupField fields "path" = some (.str p) → p ≠ "" →
      lookupField fields "line" = some (.num l) →
      lookupField fields "start" = some (.num c) →
      (findDefinition env file cc line column st).response =
        .ok (some { file := some (.str p), line := some (l - 1),
                    column := some (c - 1) })) ∧
    (lookupField fields "path" = none →
      (findDefinition env file cc line column st).response = .ok none) := by
  have hloop : execLoop env.attempts opts.cwd st 0 5 =
      { result := .ok r, attemptsMade := 1, spawned := [], finalState := st } :=
    execLoop_ok env.attempts opts.cwd st 0 5 r hexec
  constructor
  · intro p l c hpath hp hline hstart
    simp only [findDefinition]
    rw [execFlow_run env _ _ file st opts hopts hroot, hloop]
    simp [hexit, parseJsonE, hparse, getProp, hpath, hline, hstart, truthy, hp,
      jsSub1, toNumber, catchAll, Except.map]
  · intro hpath
    simp only [findDefinition]
    rw [execFlow_run env _ _ file st opts hopts hroot, hloop]
    simp [hexit, parseJsonE, hparse, getProp, hpath, truthy, catchAll, Except.map]

/-- Claim C6, witness: a worker reporting (line 5, start 3) yields
0-based (4, 2). -/
theorem findDefinition_decode_witness :
    (findDefinition envDef "/r/a.js" "" 10 20 stEmpty).response =
      .ok (some { file := some (.str "/r/b.js"), line := some 4, column := some 2 }) :=
  (findDefinition_decode envDef "/r/a.js" "" 10 20 stEmpty { cwd := "/r" }
      { exitCode := 0, stdout := "defout", stderr := "" }
      [("path", .str "/r/b.js"), ("line", .num 5), ("start", .num 3)]
      rfl rfl rfl rfl rfl).1 "/r/b.js" 5 3 rfl (by decide) rfl rfl

/-- Claim C7, counterexample: for output `"Foo\nBar\nFailure: x"` the
line immediately following the first is `"Bar"`, which does not begin
with `Failure`, and the first line `"Foo"` is neither `"(unknown)"` nor
empty — so the claim predicts the type `"Foo"` — yet the handler
returns the no-result value, because the `/\nFailure/` test matches a
`Failure` line anywhere after the first. -/
theorem getType_third_line_failure :
    (getType envFoo "/r/a.js" "" 0 0 stEmpty).response = .ok none ∧
    firstLine "Foo\nBar\nFailure: x" = "Foo" ∧
    charsBeginWith "Bar\nFailure: x".toList "Failure".toList = false ∧
    "Foo" ≠ "(unknown)" ∧ "Foo" ≠ "" :=
  ⟨rfl, rfl, rfl, by decide, by decide⟩

/-- Claim C7, amended: on a successful invocation the handler returns
the no-result value when the output contains a newline immediately
followed by `Failure` (i.e. any line after the first begins with
`Failure`); otherwise it returns the first line of output, except that
the literal `(unknown)` marker and an empty first line also yield the
no-result value. -/
theorem getType_output_rules (env : FlowEnv) (file cc : String)
    (line column : Int) (st : FlowState) (opts : FlowExecOptions) (r : ExecResult)
    (hopts : env.getFlowExecOptions file = some opts)
    (hroot : st.failedRoots.contains opts.cwd = false)
    (hexec : env.attempts 0 = .ok r) :
    (containsSubstring r.stdout "\nFailure" = true →
      (getType env file cc line column st).response = .ok none) ∧
    (containsSubstring r.stdout "\nFailure" = false →
      (firstLine r.stdout = "(unknown)" ∨ firstLine r.stdout = "" →
        (getType env file cc line column st).response = .ok none) ∧
      (firstLine r.stdout ≠ "(unknown)" → firstLine r.stdout ≠ "" →
        (getType env file cc line column st).response =
          .ok (some (firstLine r.stdout)))) := by
  have hloop : execLoop env.attempts opts.cwd st 0 5 =
      { result := .ok r, attemptsMade := 1, spawned := [], finalState := st } :=
    execLoop_ok env.attempts opts.cwd st 0 5 r hexec
  constructor
  · intro hfail
    simp only [getType]
    rw [execFlow_run env _ _ file st opts hopts hroot, hloop]
    simp [typeFromOutput, hfail, Except.map]
  · intro hfail
    constructor
    · intro hunk
      simp only [getType]
      rw [execFlow_run env _ _ file st opts hopts hroot, hloop]
      rcases hunk with h1 | h1 <;> simp [typeFromOutput, hfail, h1, Except.map]
    · intro h1 h2
      simp only [getType]
      rw [execFlow_run env _ _ file st opts hopts hroot, hloop]
      simp [typeFromOutput, hfail, h1, h2, Except.map]

/-- Claim C7, witness for the amended theorem: a `Failure` line in the
output yields the no-result value. -/
theorem getType_output_rules_witness :
    (getType envFoo "/r/a.js" "" 0 0 stEmpty).response = .ok none :=
  (getType_output_rules envFoo "/r/a.js" "" 0 0 stEmpty { cwd := "/r" }
      { exitCode := 0, stdout := "Foo\nBar\nFailure: x", stderr := "" }
      rfl rfl rfl).1 rfl

/-- Claim C8, counterexample: disposal does not clear the handle set —
after `dispose` of a state tracking one server, the set still holds that
server. -/
theorem dispose_does_not_clear :
    (dispose stOne).2.startedServers = [{ pid := 0, root := "/r" }] ∧
    (dispose stOne).2.startedServers ≠ [] :=
  ⟨rfl, by decide⟩

/-- Claim C8, amended: disposal sends exactly one forceful SIGKILL to
every tracked worker handle (including any spawned earlier), and every
signal sent is SIGKILL — but the handle set is left unchanged, not
cleared. -/
theorem dispose_sigkill_each_once (st : FlowState) (h : st.startedServers.Nodup) :
    (dispose st).1 = st.startedServers.map (fun s => { target := s, signal := "SIGKILL" }) ∧
    (∀ s ∈ st.startedServers,
        ((dispose st).1.count { target := s, signal := "SIGKILL" }) = 1) ∧
    (∀ a ∈ (dispose st).1, a.signal = "SIGKILL") ∧
    (dispose st).2 = st := by
  refine ⟨rfl, ?_, ?_, rfl⟩
  · intro s hs
    have hinj : Function.Injective
        (fun s => ({ target := s, signal := "SIGKILL" } : KillAction)) := by
      intro a b hab
      simpa using congrArg KillAction.target hab
    have hnodup : ((dispose st).1).Nodup := h.map hinj
    exact List.count_eq_one_of_mem hnodup (List.mem_map_of_mem _ hs)
  · intro a ha
    simp only [dispose, List.mem_map] at ha
    obtain ⟨s, _, rfl⟩ := ha
    rfl

/-- Claim C8, witness for the amended theorem at a one-server state. -/
theorem dispose_sigkill_each_once_witness :
    (dispose stOne).1 = stOne.startedServers.map (fun s => { target := s, signal := "SIGKILL" }) ∧
    (∀ s ∈ stOne.startedServers,
        ((dispose stOne).1.count { target := s, signal := "SIGKILL" }) = 1) ∧
    (∀ a ∈ (dispose stOne).1, a.signal = "SIGKILL") ∧
    (dispose stOne).2 = stOne :=
  dispose_sigkill_each_once stOne (by decide)

/-- Claim C9, counterexample: a worker exiting on its own (exit code 0,
no signal) is not removed from the tracking set — the handle is still
tracked afterwards. -/
theorem serverExit_keeps_handle :
    (onServerExit "/r" stOne (some 0) none).startedServers = [{ pid := 0, root := "/r" }] ∧
    (onServerExit "/r" stOne (some 0) none).startedServers ≠ [] :=
  ⟨rfl, by decide⟩

/-- Claim C9, amended: the exit observer never removes a handle from the
tracking set, and the execute pipeline only appends to it — the set
holds every worker ever spawned, whether or not it has exited, until the
supervisor itself goes away. -/
theorem startedServers_persist (root : String) (st : FlowState)
    (code : Option Int) (signal : Option String) :
    (onServerExit root st code signal).startedServers = st.startedServers ∧
    ∀ (env : FlowEnv) (args : List String) (options : ExecOptions)
      (file : String) (st0 : FlowState),
      (execFlow env args options file st0).finalState.startedServers =
        st0.startedServers ++ (execFlow env args options file st0).spawned := by
  constructor
  · unfold onServerExit
    split <;> rfl
  · intro env args options file st0
    cases h : env.getFlowExecOptions file with
    | none =>
      rw [execFlow_noOptions env args options file st0 h]
      simp
    | some opts =>
      by_cases hb : st0.failedRoots.contains opts.cwd
      · rw [execFlow_blacklisted_case env args options file st0 opts h hb]
        simp
      · rw [execFlow_run env args options file st0 opts h (by simpa using hb)]
        exact execLoop_startedServers env.attempts opts.cwd 5 st0 0

/-- Claim C10: a single `_execFlow` call spawns at most 5 worker
processes — one per failed attempt that is retried, never one for the
final failure, which is rethrown before the stderr text is inspected;
under sustained transient absence exactly 5 spawns happen and the last
failure is propagated. -/
theorem execFlow_spawn_bound (env : FlowEnv) (args : List String)
    (options : ExecOptions) (file : String) (st : FlowState) :
    (execFlow env args options file st).spawned.length ≤ 5 ∧
    (∀ (opts : FlowExecOptions) (e : Nat → ExecError),
      env.getFlowExecOptions file = some opts →
      st.failedRoots.contains opts.cwd = false →
      (∀ j, env.attempts j = .err (e j)) →
      (∀ j, containsSubstring (e j).stderr noServerRunningSig = true) →
      (execFlow env args options file st).spawned.length = 5 ∧
      (execFlow env args options file st).result = .error (e 5)) := by
  constructor
  · cases h : env.getFlowExecOptions file with
    | none =>
      rw [execFlow_noOptions env args options file st h]
      simp
    | some opts =>
      by_cases hb : st.failedRoots.contains opts.cwd
      · rw [execFlow_blacklisted_case env args options file st opts h hb]
        simp
      · rw [execFlow_run env args options file st opts h (by simpa using hb)]
        exact execLoop_spawned_le env.attempts opts.cwd 5 st 0
  · intro opts e hopts hroot hfail hmatch
    have hs := execLoop_sustained env.attempts e opts.cwd hfail hmatch 5 st 0
    rw [execFlow_run env args options file st opts hopts hroot]
    exact ⟨by simpa using hs.2.2, by simp [hs.1, Except.map]⟩

/-- Claim C10, witness: the sustained-absence environment spawns exactly
5 workers over its 6 attempts and surfaces the final failure. -/
theorem execFlow_spawn_bound_witness :
    (execFlow envSustained [] { stdin := none } "/r/a.js" stEmpty).spawned.length ≤ 5 ∧
    (execFlow envSustained [] { stdin := none } "/r/a.js" stEmpty).spawned.length = 5 ∧
    (execFlow envSustained [] { stdin := none } "/r/a.js" stEmpty).result = .error errNoServer :=
  ⟨(execFlow_spawn_bound envSustained [] { stdin := none } "/r/a.js" stEmpty).1,
   (execFlow_spawn_bound envSustained [] { stdin := none } "/r/a.js" stEmpty).2
     { cwd := "/r" } (fun _ => errNoServer) rfl rfl (fun _ => rfl) (fun _ => rfl)⟩
